import Mathlib

/-!
Verification of the connection and request-handling core of the rust-server
repository, as a shallow embedding in Lean 4.

Bytes and Unicode code points are modelled as natural numbers; Rust strings
are lists of code points; byte buffers are lists of bytes.  Fallible Rust
code is modelled with Except; a Rust panic is modelled by Option none on the
functions that can panic.  Machine integers that can overflow (the u8 host
counter of the validator) are modelled with explicit wraparound modulo 256.
-/

namespace RustServer

/-- Code points of a Lean string literal.  Concrete program inputs are all
ASCII, where the code points coincide with the UTF-8 bytes. -/
def str (s : String) : List Nat := s.data.map Char.toNat

/-- ErrorType from error.rs (module my_errors); every variant carries its
message, modelled as the code points of the message. -/
inductive ErrorType where
  | SocketError (msg : List Nat)
  | ReadError (msg : List Nat)
  | WriteError (msg : List Nat)
  | BadRequest (msg : List Nat)
  | NotFound (msg : List Nat)
  | InternalServerError (msg : List Nat)
  | ProtocolError (msg : List Nat)
  | ConnectionError (msg : List Nat)
deriving DecidableEq, Repr

-- Decidable equality for validator results, used to evaluate the model on
-- concrete inputs.
deriving instance DecidableEq for Except

/-- Rust char::is_whitespace: the Unicode White_Space code points. -/
def isWs (c : Nat) : Bool :=
  c = 0x09 || c = 0x0A || c = 0x0B || c = 0x0C || c = 0x0D || c = 0x20 ||
  c = 0x85 || c = 0xA0 || c = 0x1680 || (0x2000 ≤ c && c ≤ 0x200A) ||
  c = 0x2028 || c = 0x2029 || c = 0x202F || c = 0x205F || c = 0x3000

/-- Rust char::is_control: the Unicode category Cc. -/
def isControl (c : Nat) : Bool := c ≤ 0x1F || (0x7F ≤ c && c ≤ 0x9F)

/-- Rust str::starts_with for a list of code points. -/
def startsWithList : List Nat → List Nat → Bool
  | [], _ => true
  | _ :: _, [] => false
  | p :: ps, x :: xs => decide (p = x) && startsWithList ps xs

/-- Rust str::contains with a substring pattern, at the code-point level
(all patterns used by the program are ASCII, where byte-level and
code-point-level containment agree on valid UTF-8 text). -/
def containsSub (pat : List Nat) : List Nat → Bool
  | [] => pat.isEmpty
  | x :: xs => startsWithList pat (x :: xs) || containsSub pat xs

/-- Rust str::ends_with for a list of code points or bytes. -/
def endsWithList (pat l : List Nat) : Bool := startsWithList pat.reverse l.reverse

/-- Continuation byte of a UTF-8 sequence. -/
def isCont (b : Nat) : Bool := 0x80 ≤ b && b ≤ 0xBF

/-- One step of UTF-8 decoding: with lead byte b and the remaining bytes,
returns the decoded code point and how many continuation bytes the sequence
consumed, or none when the sequence is invalid (wrong continuation bytes,
overlong encodings, surrogates and out-of-range values are rejected, as in
the Rust standard library). -/
def utf8DecodeChar (b : Nat) (rest : List Nat) : Option (Nat × Nat) :=
  if b ≤ 0x7F then some (b, 0)
  else if b < 0xC2 then none
  else if b ≤ 0xDF then
    match rest with
    | c1 :: _ =>
      if isCont c1 then some ((b - 0xC0) * 0x40 + (c1 - 0x80), 1) else none
    | [] => none
  else if b ≤ 0xEF then
    match rest with
    | c1 :: c2 :: _ =>
      if (if b = 0xE0 then decide (0xA0 ≤ c1) && decide (c1 ≤ 0xBF)
          else if b = 0xED then decide (0x80 ≤ c1) && decide (c1 ≤ 0x9F)
          else isCont c1) && isCont c2 then
        some ((b - 0xE0) * 0x1000 + (c1 - 0x80) * 0x40 + (c2 - 0x80), 2)
      else none
    | _ => none
  else if b ≤ 0xF4 then
    match rest with
    | c1 :: c2 :: c3 :: _ =>
      if (if b = 0xF0 then decide (0x90 ≤ c1) && decide (c1 ≤ 0xBF)
          else if b = 0xF4 then decide (0x80 ≤ c1) && decide (c1 ≤ 0x8F)
          else isCont c1) && isCont c2 && isCont c3 then
        some ((b - 0xF0) * 0x40000 + (c1 - 0x80) * 0x1000 + (c2 - 0x80) * 0x40 + (c3 - 0x80), 3)
      else none
    | _ => none
  else none

/-- Fuel-indexed UTF-8 decoding loop: every step consumes the lead byte, so
fuel equal to the buffer length is always enough and the out-of-fuel arm is
unreachable from utf8Decode. -/
def utf8DecodeFuel : Nat → List Nat → Option (List Nat)
  | _, [] => some []
  | 0, _ :: _ => none
  | fuel + 1, b :: rest =>
    match utf8DecodeChar b rest with
    | none => none
    | some (c, k) => (utf8DecodeFuel fuel (rest.drop k)).map (fun cs => c :: cs)

/-- Rust String::from_utf8: decodes a byte buffer into its code points, or
fails when the bytes are not valid UTF-8. -/
def utf8Decode (l : List Nat) : Option (List Nat) := utf8DecodeFuel l.length l

/-- Prepends one code point to the first piece of a piece list. -/
def consHead (c : Nat) : List (List Nat) → List (List Nat)
  | [] => [[c]]
  | p :: ps => (c :: p) :: ps

/-- Rust str::split with the separator LF (code point 10): n separators give
n + 1 pieces. -/
def splitNl : List Nat → List (List Nat)
  | [] => [[]]
  | c :: rest =>
    if c = 10 then [] :: splitNl rest
    else consHead c (splitNl rest)

/-- Removes one trailing CR (code point 13), if present. -/
def rstripCr (l : List Nat) : List Nat :=
  match l.reverse with
  | 13 :: t => t.reverse
  | _ => l

/-- Helper of linesOf: a trailing CR is stripped from every piece that was
followed by a separator, and a final empty piece is dropped (Rust strips the
CR only next to an actual LF, and treats the final line ending as optional). -/
def linesAux : List (List Nat) → List (List Nat)
  | [] => []
  | [p] => if p.isEmpty then [] else [p]
  | p :: q :: ps => rstripCr p :: linesAux (q :: ps)

/-- Rust str::lines at the code-point level. -/
def linesOf (l : List Nat) : List (List Nat) := linesAux (splitNl l)

/-- Tokenizer loop of split_whitespace: cur holds the code points of the
token being read, most recent first; a whitespace code point or the end of
the line closes the token. -/
def splitWsGo (cur : List Nat) : List Nat → List (List Nat)
  | [] => if cur.isEmpty then [] else [cur.reverse]
  | c :: rest =>
    if isWs c then
      if cur.isEmpty then splitWsGo [] rest else cur.reverse :: splitWsGo [] rest
    else splitWsGo (c :: cur) rest

/-- Rust str::split_whitespace at the code-point level: maximal runs of
non-whitespace code points, with whitespace runs discarded. -/
def splitWs (l : List Nat) : List (List Nat) := splitWsGo [] l

/-- Decimal rendering of a natural number (Rust to_string on unsigned
integers), as ASCII code points. -/
def natToString (n : Nat) : List Nat :=
  if n < 10 then [n + 48]
  else natToString (n / 10) ++ [n % 10 + 48]
termination_by n
decreasing_by exact Nat.div_lt_self (by omega) (by omega)

/-- Forbidden URI characters of security.rs validate_uri, in source order:
less-than, greater-than, open brace, close brace, pipe, backslash, caret,
backtick, open bracket, close bracket, space, percent. -/
def forbidden_characters : List Nat := [60, 62, 123, 125, 124, 92, 94, 96, 91, 93, 32, 37]

/-- Forbidden URI substrings of security.rs validate_uri, in source order;
the eleventh entry is a single quote, the letters O and R around a space,
and a closing single quote. -/
def forbidden_words : List (List Nat) :=
  [str "rm", str "sh", str "bash", str "python", str "perl", str "exec",
   str "delete", str "drop", str "cmd", str "script", str ";--",
   [39] ++ str " OR " ++ [39], str "&&"]

/-- security.rs validate_uri, on the code points of the URI token. -/
def validate_uri (uri : List Nat) : Except ErrorType Unit :=
  if uri.isEmpty || containsSub (str "..") uri || startsWithList (str "http://") uri
      || !startsWithList (str "/") uri || uri.contains 0 then
    .error (.BadRequest (str "Invalid uri: " ++ uri))
  else if uri.any (fun c => isControl c) then
    .error (.BadRequest (str "Invalid uri: " ++ uri))
  else if uri.any (fun c => forbidden_characters.contains c) then
    .error (.BadRequest (str "Invalid uri: " ++ uri))
  else if forbidden_words.any (fun w => containsSub w uri) then
    .error (.BadRequest (str "Invalid uri: " ++ uri))
  else if uri.any (fun c => forbidden_characters.contains c) then
    .error (.BadRequest (str "Invalid uri: " ++ uri))
  else .ok ()

/-- Supported methods of security.rs request_line_validation, in source
order. -/
def methods : List (List Nat) := [str "GET", str "POST", str "PUT", str "DELETE"]

/-- Supported protocols of security.rs request_line_validation, in source
order. -/
def protocols : List (List Nat) :=
  [str "HTTP/1.1", str "HTTP/1.0", str "HTTP/2", str "HTTP/3"]

/-- security.rs request_line_validation, on the code points of the first
request line. -/
def request_line_validation (request_line : List Nat) : Except ErrorType Unit :=
  match splitWs request_line with
  | [method, uri, protocol] =>
    if !methods.contains method then
      .error (.BadRequest (str "Invalid request method"))
    else if !startsWithList (str "/") uri then
      .error (.BadRequest (str "Invalid request uri"))
    else
      match validate_uri uri with
      | .error e => .error e
      | .ok () =>
        if !protocols.contains protocol then
          .error (.BadRequest (str "Invalid request protocol"))
        else .ok ()
  | _ => .error (.BadRequest (str "Invalid request line"))

/-- Host counter of security.rs validate_headers: iterates over the header
lines, stops at the first empty line, and counts the lines starting with the
Host prefix.  The counter is a u8 in the source; the increment is modelled
with wraparound modulo 256 (the release-mode semantics of u8 addition). -/
def hostCount : List (List Nat) → Nat → Nat
  | [], acc => acc
  | line :: rest, acc =>
    if line.isEmpty then acc
    else hostCount rest (if startsWithList (str "Host:") line then (acc + 1) % 256 else acc)

/-- security.rs validate_headers, on the lines after the request line. -/
def validate_headers (lines : List (List Nat)) : Except ErrorType Unit :=
  if hostCount lines 0 ≠ 1 then
    .error (.BadRequest (str "Invalid host count: " ++ natToString (hostCount lines 0)))
  else .ok ()

/-- security.rs check_overflow: compares the last four bytes of the buffer
with CR LF CR LF.  The slice with the lower end at length minus four panics
when the buffer holds fewer than four bytes (the usize subtraction wraps and
the range start falls out of bounds); the panic is modelled as none. -/
def check_overflow (data : List Nat) : Option (Except ErrorType Unit) :=
  if data.length < 4 then none
  else if data.drop (data.length - 4) ≠ [13, 10, 13, 10] then
    some (.error (.BadRequest (str "Request overflow")))
  else some (.ok ())

/-- security.rs handle_request: UTF-8 decoding, then the request line is
taken from the line iterator, validated, the remaining lines are checked for
the Host header, and the raw buffer is checked for the terminator.  The
value none models a panic (reachable only through check_overflow). -/
def handle_request (buffer : List Nat) : Option (Except ErrorType Unit) :=
  match utf8Decode buffer with
  | none => some (.error (.BadRequest (str "Invalid UTF-8 request")))
  | some request =>
    match linesOf request with
    | [] => some (.error (.BadRequest (str "Missing request line")))
    | request_line :: rest =>
      match request_line_validation request_line with
      | .error e => some (.error e)
      | .ok () =>
        match validate_headers rest with
        | .error e => some (.error e)
        | .ok () => check_overflow buffer

/-- HttpMethod from request.rs. -/
inductive HttpMethod where
  | GET | POST | PUT | PATCH | DELETE
deriving DecidableEq, Repr

/-- Uppercasing of a code point as Rust char::to_uppercase acts on the ASCII
range (the only range the program ever feeds it with a method token that can
still match one of the ASCII method names). -/
def asciiUpper (c : Nat) : Nat := if 97 ≤ c && c ≤ 122 then c - 32 else c

/-- Rust str::to_uppercase restricted to the ASCII mapping. -/
def toUppercase (l : List Nat) : List Nat := l.map asciiUpper

/-- HttpMethod::new from request.rs: containment tests on the uppercased
token, with DELETE as the fallback; total, never fails. -/
def HttpMethod.new (method : List Nat) : HttpMethod :=
  if containsSub (str "GET") (toUppercase method) then .GET
  else if containsSub (str "POST") (toUppercase method) then .POST
  else if containsSub (str "PUT") (toUppercase method) then .PUT
  else if containsSub (str "PATCH") (toUppercase method) then .PATCH
  else .DELETE

/-- Request from request.rs: headers kept as raw lines, body as text. -/
structure Request where
  headers : List (List Nat)
  body : List Nat
  method : HttpMethod
  uri : List Nat
deriving DecidableEq, Repr

/-- Header and body loop of Request::new in request.rs: lines before the
first empty line are headers, lines after it are concatenated into the body. -/
def requestHeaderBody : List (List Nat) → Bool → List (List Nat) → List Nat →
    List (List Nat) × List Nat
  | [], _, hs, b => (hs.reverse, b)
  | line :: rest, flag, hs, b =>
    if line.isEmpty then requestHeaderBody rest true hs b
    else if flag then requestHeaderBody rest flag hs (b ++ line)
    else requestHeaderBody rest flag (line :: hs) b

/-- Request::new from request.rs.  The source unwraps the UTF-8 conversion
and indexes the token vector of the first line at positions zero and one;
both operations panic when they fail, and a panic is modelled as none.
An Err is returned only for fewer than three lines. -/
def Request.new (buffer : List Nat) : Option (Except ErrorType Request) :=
  match utf8Decode buffer with
  | none => none
  | some s =>
    if (linesOf s).length < 3 then
      some (.error (.ConnectionError (str "Invalid request")))
    else
      match linesOf s with
      | [] => none
      | l0 :: rest =>
        match splitWs l0 with
        | m :: u :: _ =>
          some (.ok { headers := (requestHeaderBody rest false [] []).1,
                      body := (requestHeaderBody rest false [] []).2,
                      method := HttpMethod.new m,
                      uri := u })
        | _ => none

/-- Errors logged for one validator result in the session loop: the Err arm
of the match on handle_request logs the error, the Ok arm logs nothing. -/
def sessionLogged : Except ErrorType Unit → List ErrorType
  | .error e => [e]
  | .ok () => []

/-- Outcome of the validating and parsing steps of one iteration of the
session loop in main.rs run_server. -/
inductive SessionOutcome where
  | dispatched (logged : List ErrorType) (req : Request)
  | closed (logged : List ErrorType)
  | panicked (logged : List ErrorType)
deriving DecidableEq, Repr

/-- Validate-then-parse steps of one iteration of the connection-session
loop spawned by run_server in main.rs, lines 138 to 155, for one read
buffer: handle_request is called and its error is only logged (the Err arm
has no break); the loop then always proceeds to Request::new on the same
buffer, breaking the loop only when Request::new returns Err.  The list
carried by each outcome holds the errors logged in order. -/
def session_validate_parse (buffer : List Nat) : SessionOutcome :=
  match handle_request buffer with
  | none => .panicked []
  | some v =>
    match Request.new buffer with
    | none => .panicked (sessionLogged v)
    | some (.error e) => .closed (sessionLogged v ++ [e])
    | some (.ok req) => .dispatched (sessionLogged v) req

/-- Records one performed sleep in front of the wait list of an accept-loop
result. -/
def consWait (b : Nat) (r : Except ErrorType Nat × List Nat) :
    Except ErrorType Nat × List Nat :=
  (r.1, b :: r.2)

/-- Accept loop of Listener::accept in connection.rs, lines 331 to 356.
The argument outcome gives the result of the n-th call to the tokio
accept: true is a successful accept, false a transient error.  The loop
starts with a backoff of 200 ms (re-initialized on every call of accept);
on a failed attempt, when the current backoff exceeds 6000 ms the loop
returns the fatal SocketError, otherwise it sleeps for the current backoff
and doubles it.  The value returned is the loop result together with the
list of sleeps performed, in milliseconds and in order. -/
def acceptLoop (outcome : Nat → Bool) (i : Nat) (backoff : Nat) (hb : 0 < backoff) :
    Except ErrorType Nat × List Nat :=
  if outcome i then (.ok i, [])
  else if 6000 < backoff then
    (.error (.SocketError (str "Error establishing connection")), [])
  else consWait backoff (acceptLoop outcome (i + 1) (backoff * 2) (by omega))
termination_by 6001 - backoff
decreasing_by omega

/-- Listener::accept from connection.rs: the accept loop started with the
initial 200 ms backoff. -/
def Listener.accept (outcome : Nat → Bool) : Except ErrorType Nat × List Nat :=
  acceptLoop outcome 0 200 (by omega)

/-- Shared connection-admission state of run_server in main.rs: available
counts the free permits of the tokio semaphore created with capacity five,
acceptorHolding is true between acquire_owned and the spawn (or the early
return) of the accept loop, and active counts the spawned session tasks
that have not yet dropped their permit. -/
structure ServerState where
  available : Nat
  acceptorHolding : Bool
  active : Nat
deriving DecidableEq, Repr

/-- State of run_server before the first iteration: Semaphore::new(5),
no permit held, no session spawned. -/
def initialServer : ServerState := { available := 5, acceptorHolding := false, active := 0 }

/-- Transitions of the admission state, from run_server in main.rs:
acquire models acquire_owned (it suspends until a permit is free, so it
fires only when one is available); spawn models tokio::spawn moving the
permit into the new session task; acceptFail models the early return of
run_server on an accept error, which drops the held permit; sessionEnd
models the end of a session task on any of its exit paths, whose final
drop(permit) releases the permit exactly once. -/
inductive ServerStep : ServerState → ServerState → Prop where
  | acquire (s : ServerState) : s.acceptorHolding = false → 0 < s.available →
      ServerStep s { available := s.available - 1, acceptorHolding := true, active := s.active }
  | spawn (s : ServerState) : s.acceptorHolding = true →
      ServerStep s { available := s.available, acceptorHolding := false, active := s.active + 1 }
  | acceptFail (s : ServerState) : s.acceptorHolding = true →
      ServerStep s { available := s.available + 1, acceptorHolding := false, active := s.active }
  | sessionEnd (s : ServerState) : 0 < s.active →
      ServerStep s { available := s.available + 1, acceptorHolding := s.acceptorHolding,
                     active := s.active - 1 }

/-- States reachable from the initial admission state. -/
def ServerReachable (s : ServerState) : Prop :=
  Relation.ReflTransGen ServerStep initialServer s

/-- Protocol from request.rs. -/
inductive Protocol where
  | Http
deriving DecidableEq, Repr

/-- Display of Protocol from request.rs. -/
def Protocol.display : Protocol → List Nat
  | .Http => str "HTTP/1.1"

/-- HttpCode from request.rs. -/
inductive HttpCode where
  | Ok | Created | BadRequest | Unauthorized | NotFound
  | MethodNotAllowed | RequestTimeout | Teapot | InternalServerError
deriving DecidableEq, Repr

/-- Display of HttpCode from request.rs: the numeric code and reason. -/
def HttpCode.display : HttpCode → List Nat
  | .Ok => str "200 OK"
  | .Created => str "201 Created"
  | .BadRequest => str "400 Bad Request"
  | .Unauthorized => str "401 Unauthorized"
  | .NotFound => str "404 Not Found"
  | .MethodNotAllowed => str "405 Method Not Allowed"
  | .RequestTimeout => str "408 Request Timeout"
  | .Teapot => str "418 I" ++ [39] ++ str "m a teapot"
  | .InternalServerError => str "500 Internal Server Error"

/-- ContentType from request.rs. -/
inductive ContentType where
  | Text | Html | Json
deriving DecidableEq, Repr

/-- Header from request.rs: a title and a value. -/
structure Header where
  title : List Nat
  value : List Nat
deriving DecidableEq, Repr

/-- Display of Header from request.rs: title, space, colon, space, value. -/
def Header.display (h : Header) : List Nat := h.title ++ str " : " ++ h.value

/-- Response from request.rs: the compression flag records whether the
handler requested gzip compression of the body. -/
structure Response where
  protocol : Protocol
  code : HttpCode
  content_type : ContentType
  body : List Nat
  compression : Bool
  headers : List Header
deriving DecidableEq, Repr

/-- Rust slice join for code-point lists: pieces interleaved with the
separator, nothing appended after the last piece. -/
def joinSep (sep : List Nat) : List (List Nat) → List Nat
  | [] => []
  | [x] => x
  | x :: xs => x ++ sep ++ joinSep sep xs

/-- Final body emitted by Response::to_bytes in request.rs: the raw body, or
its compression when the compression flag is set.  The gzip codec lives in
the external flate2 crate, outside this repository, so the compressor is an
abstract function argument gz. -/
def finalBody (gz : List Nat → List Nat) (r : Response) : List Nat :=
  if r.compression then gz r.body else r.body

/-- Response::to_bytes from request.rs, lines 81 to 115, with the external
flate2 gzip encoder abstracted as gz: the status line is the protocol, a
space, the code and CR LF; the body is compressed exactly when the
compression flag is set; the Content-Length header is appended to the
header vector after that (so its value is the length of the final,
possibly compressed body); the wire bytes are the status line, the
rendered headers joined by CR LF, the blank line, and the final body. -/
def Response.to_bytes (gz : List Nat → List Nat) (self : Response) : List Nat :=
  match self.protocol.display ++ [32] ++ self.code.display ++ [13, 10] with
  | response_line =>
    match (if !self.compression then self.body else gz self.body) with
    | body =>
      match self.headers ++ [Header.mk (str "Content-Length")
                               (natToString body.length)] with
      | headers =>
        response_line ++ joinSep [13, 10] (headers.map Header.display) ++
          [13, 10, 13, 10] ++ body

/-- Header section of the encoded response: everything Response::to_bytes
emits before the final body, with the appended Content-Length header made
explicit. -/
def headerSection (gz : List Nat → List Nat) (r : Response) : List Nat :=
  r.protocol.display ++ [32] ++ r.code.display ++ [13, 10] ++
    joinSep [13, 10] ((r.headers ++
      [Header.mk (str "Content-Length")
         (natToString (finalBody gz r).length)]).map Header.display) ++
    [13, 10, 13, 10]

/-- Sample response used to instantiate the codec round-trip at a concrete
input: gzip-flagged, empty header vector, two-byte body. -/
def sampleResponse : Response := Response.mk .Http .Ok .Html [65, 66] true []

/-- Spec check 1 of the validator contract in the spec (section 4.6): the
bytes decode as UTF-8. -/
def specCheckUtf8 (buffer : List Nat) : Option ErrorType :=
  if (utf8Decode buffer).isSome then none
  else some (.BadRequest (str "Invalid UTF-8 request"))

/-- Decoded code points of the buffer, with the empty default; meaningful
once spec check 1 has passed. -/
def decodedCps (buffer : List Nat) : List Nat := (utf8Decode buffer).getD []

/-- Token with the given index on the first line, with the empty default;
meaningful once spec check 2 has passed. -/
def lineTok (i : Nat) (buffer : List Nat) : List Nat :=
  (splitWs ((linesOf (decodedCps buffer)).headD [])).getD i []

/-- Spec check 2: the first line exists and splits into exactly three
whitespace-separated tokens. -/
def specCheckRequestLine (buffer : List Nat) : Option ErrorType :=
  match linesOf (decodedCps buffer) with
  | [] => some (.BadRequest (str "Missing request line"))
  | l0 :: _ =>
    if (splitWs l0).length = 3 then none
    else some (.BadRequest (str "Invalid request line"))

/-- Spec check 3: the method token is one of the supported methods. -/
def specCheckMethod (buffer : List Nat) : Option ErrorType :=
  if methods.contains (lineTok 0 buffer) then none
  else some (.BadRequest (str "Invalid request method"))

/-- Spec check 4: the URI token starts with a slash and passes the
character, traversal and denylist checks of validate_uri. -/
def specCheckUri (buffer : List Nat) : Option ErrorType :=
  if !startsWithList (str "/") (lineTok 1 buffer) then
    some (.BadRequest (str "Invalid request uri"))
  else
    match validate_uri (lineTok 1 buffer) with
    | .error e => some e
    | .ok () => none

/-- Spec check 5: the protocol token is one of the supported protocols. -/
def specCheckProtocol (buffer : List Nat) : Option ErrorType :=
  if protocols.contains (lineTok 2 buffer) then none
  else some (.BadRequest (str "Invalid request protocol"))

/-- Spec check 6: exactly one Host header line among the header lines. -/
def specCheckHost (buffer : List Nat) : Option ErrorType :=
  match validate_headers ((linesOf (decodedCps buffer)).tail) with
  | .error e => some e
  | .ok () => none

/-- Spec check 7: the raw byte buffer ends with CR LF CR LF. -/
def specCheckTerminator (buffer : List Nat) : Option ErrorType :=
  if endsWithList [13, 10, 13, 10] buffer then none
  else some (.BadRequest (str "Request overflow"))

/-- The seven checks of the validator contract (spec section 4.6), in the
order the spec states them. -/
def validatorChecks (buffer : List Nat) : List (Option ErrorType) :=
  [specCheckUtf8 buffer, specCheckRequestLine buffer, specCheckMethod buffer,
   specCheckUri buffer, specCheckProtocol buffer, specCheckHost buffer,
   specCheckTerminator buffer]

/-- Short-circuiting run of a check list: the first failure wins, success
when every check passes. -/
def firstSome : List (Option ErrorType) → Except ErrorType Unit
  | [] => .ok ()
  | some e :: _ => .error e
  | none :: rest => firstSome rest

/-! Helper lemmas. -/

set_option maxHeartbeats 2000000
set_option maxRecDepth 10000

/-- Decoding can only shrink: every decoded code point consumed at least one
byte of the buffer. -/
theorem utf8DecodeFuel_length :
    ∀ (fuel : Nat) (l : List Nat), ∀ cs, utf8DecodeFuel fuel l = some cs →
      cs.length ≤ l.length := by
  intro fuel
  induction fuel with
  | zero =>
    intro l cs h
    cases l with
    | nil => rw [utf8DecodeFuel] at h; cases h; simp
    | cons b rest => rw [utf8DecodeFuel] at h; cases h
  | succ n ih =>
    intro l cs h
    cases l with
    | nil => rw [utf8DecodeFuel] at h; cases h; simp
    | cons b rest =>
      rw [utf8DecodeFuel] at h
      revert h
      cases hc : utf8DecodeChar b rest with
      | none => intro h; cases h
      | some ck =>
        obtain ⟨c, k⟩ := ck
        intro h
        rw [Option.map_eq_some'] at h
        obtain ⟨cs2, hcs2, rfl⟩ := h
        have h1 := ih (rest.drop k) cs2 hcs2
        simp only [List.length_drop, List.length_cons] at h1 ⊢
        omega

/-- Decoding can only shrink, stated for utf8Decode. -/
theorem utf8Decode_length (l : List Nat) (cs : List Nat) (h : utf8Decode l = some cs) :
    cs.length ≤ l.length :=
  utf8DecodeFuel_length l.length l cs h

/-- Splitting on LF always yields at least one piece. -/
theorem splitNl_ne_nil (l : List Nat) : splitNl l ≠ [] := by
  induction l with
  | nil => simp [splitNl]
  | cons c rest ih =>
    rw [splitNl]
    split_ifs
    · simp
    · revert ih
      match h : splitNl rest with
      | [] => intro ih; exact absurd rfl ih
      | p :: ps => intro _; simp [consHead]

/-- Every piece of the LF split is no longer than the split text. -/
theorem mem_splitNl_length (l : List Nat) : ∀ p ∈ splitNl l, p.length ≤ l.length := by
  induction l with
  | nil => simp [splitNl]
  | cons c rest ih =>
    intro p hp
    rw [splitNl] at hp
    by_cases hc : c = 10
    · rw [if_pos hc] at hp
      rcases List.mem_cons.mp hp with h | h
      · subst h; simp
      · have := ih p h; simp; omega
    · rw [if_neg hc] at hp
      revert hp
      match hsp : splitNl rest with
      | [] => exact absurd hsp (splitNl_ne_nil rest)
      | q :: qs =>
        intro hp
        rcases List.mem_cons.mp (by simpa [consHead] using hp) with h | h
        · subst h
          have hq : q ∈ splitNl rest := by rw [hsp]; exact List.mem_cons_self q qs
          have := ih q hq
          simp at this ⊢
          omega
        · have hq : p ∈ splitNl rest := by rw [hsp]; exact List.mem_cons_of_mem q h
          have := ih p hq
          simp at this ⊢
          omega

/-- Stripping a trailing CR can only shrink a line. -/
theorem rstripCr_length (l : List Nat) : (rstripCr l).length ≤ l.length := by
  unfold rstripCr
  split
  · rename_i t h
    have : l.reverse.length = t.length + 1 := by rw [h]; simp
    simp at this ⊢
    omega
  · simp

/-- The head of the line list of a piece list is, up to the stripped CR, one
of the pieces. -/
theorem linesAux_head (ps : List (List Nat)) :
    ∀ l1 rest, linesAux ps = l1 :: rest → ∃ p ∈ ps, l1.length ≤ p.length := by
  induction ps using linesAux.induct with
  | case1 => intro l1 rest h; rw [linesAux] at h; cases h
  | case2 p hp =>
    intro l1 rest h
    rw [linesAux] at h
    rw [if_pos hp] at h
    cases h
  | case3 p hp =>
    intro l1 rest h
    rw [linesAux] at h
    rw [if_neg hp] at h
    obtain ⟨h1, h2⟩ := List.cons_eq_cons.mp h
    exact ⟨p, by simp, by rw [← h1]⟩
  | case4 p q ps ih =>
    intro l1 rest h
    rw [linesAux] at h
    obtain ⟨h1, h2⟩ := List.cons_eq_cons.mp h
    exact ⟨p, by simp, by rw [← h1]; exact rstripCr_length p⟩

/-- The first line is no longer than the decoded text. -/
theorem linesOf_head_length (l l1 : List Nat) (rest : List (List Nat))
    (h : linesOf l = l1 :: rest) : l1.length ≤ l.length := by
  obtain ⟨p, hp, hlen⟩ := linesAux_head (splitNl l) l1 rest h
  exact le_trans hlen (mem_splitNl_length l p hp)

/-- Every token the tokenizer loop emits fits in the current token plus the
remaining line. -/
theorem splitWsGo_length :
    ∀ (l cur : List Nat), ∀ t ∈ splitWsGo cur l, t.length ≤ cur.length + l.length := by
  intro l
  induction l with
  | nil =>
    intro cur t ht
    rw [splitWsGo] at ht
    split_ifs at ht with hcur
    · cases ht
    · rcases List.mem_cons.mp ht with h | h
      · subst h; simp
      · cases h
  | cons c rest ih =>
    intro cur t ht
    rw [splitWsGo] at ht
    split_ifs at ht with hw hcur
    · have := ih [] t ht
      simp at this ⊢
      omega
    · rcases List.mem_cons.mp ht with h | h
      · subst h; simp only [List.length_reverse, List.length_cons]; omega
      · have := ih [] t h
        simp at this ⊢
        omega
    · have := ih (c :: cur) t ht
      simp at this ⊢
      omega

/-- Every whitespace-separated token is no longer than the line it was cut
from. -/
theorem mem_splitWs_length (l : List Nat) : ∀ t ∈ splitWs l, t.length ≤ l.length := by
  intro t ht
  have h := splitWsGo_length l [] t ht
  simpa using h

/-- Characterization of the prefix test. -/
theorem startsWithList_iff (p : List Nat) :
    ∀ l, startsWithList p l = true ↔ ∃ t, l = p ++ t := by
  induction p with
  | nil => intro l; simp [startsWithList]
  | cons a p ih =>
    intro l
    cases l with
    | nil => simp [startsWithList]
    | cons b t =>
      rw [startsWithList]
      simp only [Bool.and_eq_true, decide_eq_true_eq, ih t]
      constructor
      · rintro ⟨rfl, u, rfl⟩; exact ⟨u, rfl⟩
      · rintro ⟨u, hu⟩
        obtain ⟨h1, h2⟩ := List.cons_eq_cons.mp hu
        exact ⟨h1.symm, by rw [h2]; exact ⟨u, rfl⟩⟩

/-- Characterization of the suffix test. -/
theorem endsWithList_iff (p : List Nat) (l : List Nat) :
    endsWithList p l = true ↔ ∃ t, l = t ++ p := by
  unfold endsWithList
  rw [startsWithList_iff]
  constructor
  · rintro ⟨t, ht⟩
    refine ⟨t.reverse, ?_⟩
    have := congrArg List.reverse ht
    simpa using this
  · rintro ⟨t, rfl⟩
    exact ⟨t.reverse, by simp⟩

/-- On buffers of at least four bytes, the suffix test agrees with the
four-byte slice comparison of check_overflow. -/
theorem endsWith_drop (l : List Nat) (h4 : 4 ≤ l.length) :
    (endsWithList [13, 10, 13, 10] l = true) ↔ (l.drop (l.length - 4) = [13, 10, 13, 10]) := by
  rw [endsWithList_iff]
  constructor
  · rintro ⟨t, rfl⟩
    have hl : (t ++ [13, 10, 13, 10]).length - 4 = t.length := by simp
    rw [hl, List.drop_left]
  · intro h
    refine ⟨l.take (l.length - 4), ?_⟩
    rw [← h, List.take_append_drop]

/-- A request line that validates has exactly three tokens, an allowed
method and an allowed protocol. -/
theorem rlv_ok_shape (l : List Nat) (h : request_line_validation l = .ok ()) :
    ∃ m u p, splitWs l = [m, u, p] ∧ methods.contains m = true ∧
      protocols.contains p = true := by
  unfold request_line_validation at h
  split at h
  · rename_i m u p hs
    refine ⟨m, u, p, hs, ?_, ?_⟩
    · by_cases hm : methods.contains m
      · exact hm
      · exfalso
        rw [if_pos (show (!methods.contains m) = true by revert hm; cases methods.contains m <;> simp)] at h
        cases h
    · split_ifs at h with h1 h2 h3
      · revert h
        cases validate_uri u with
        | error e => intro h; cases h
        | ok u2 => intro h; cases h
      · revert h
        cases validate_uri u with
        | error e => intro h; cases h
        | ok u2 =>
          intro h
          revert h3
          cases protocols.contains p <;> simp
  · cases h

/-- Every allowed protocol token has at least four code points. -/
theorem protocols_length (p : List Nat) (hp : protocols.contains p = true) :
    4 ≤ p.length := by
  have hmem : p ∈ protocols := by simpa using hp
  simp only [protocols, List.mem_cons, List.not_mem_nil, or_false] at hmem
  rcases hmem with rfl | rfl | rfl | rfl <;> simp [str]

/-- When decoding succeeds and the first line validates, the raw buffer has
at least four bytes: the protocol token alone accounts for them, and tokens,
lines and code points never outnumber the bytes they came from. -/
theorem buffer_length_of_ok (buffer s l0 : List Nat) (rest : List (List Nat))
    (hdec : utf8Decode buffer = some s) (hl : linesOf s = l0 :: rest)
    (hok : request_line_validation l0 = .ok ()) : 4 ≤ buffer.length := by
  obtain ⟨m, u, p, hs, _, hp⟩ := rlv_ok_shape l0 hok
  have h1 : 4 ≤ p.length := protocols_length p hp
  have h2 : p.length ≤ l0.length :=
    mem_splitWs_length l0 p (by rw [hs]; simp)
  have h3 : l0.length ≤ s.length := linesOf_head_length s l0 rest hl
  have h4 : s.length ≤ buffer.length := utf8Decode_length buffer s hdec
  omega

/-- A three-token split has length three. -/
theorem splitWs_len3 (l0 m u p : List Nat) (hs : splitWs l0 = [m, u, p]) :
    (splitWs l0).length = 3 := by rw [hs]; rfl

/-- A split that never matches a three-token shape does not have length
three. -/
theorem splitWs_not3 (l0 : List Nat)
    (hnot : ∀ m u p, splitWs l0 = [m, u, p] → False) : (splitWs l0).length ≠ 3 := by
  intro hcontra
  rcases hsw : splitWs l0 with _ | ⟨a, _ | ⟨b, _ | ⟨c, _ | ⟨d, t⟩⟩⟩⟩
  · rw [hsw] at hcontra; simp at hcontra
  · rw [hsw] at hcontra; simp at hcontra
  · rw [hsw] at hcontra; simp at hcontra
  · exact hnot a b c hsw
  · rw [hsw] at hcontra; simp at hcontra

/-- Main refinement lemma: handle_request never panics and behaves exactly
as the short-circuiting run of the seven spec checks in spec order. -/
theorem handle_request_eq_checks (buffer : List Nat) :
    handle_request buffer = some (firstSome (validatorChecks buffer)) := by
  cases hdec : utf8Decode buffer with
  | none => simp [handle_request, validatorChecks, specCheckUtf8, specCheckRequestLine,
      specCheckMethod, specCheckUri, specCheckProtocol, specCheckHost, specCheckTerminator,
      decodedCps, lineTok, hdec, firstSome]
  | some s =>
    cases hl : linesOf s with
    | nil => simp [handle_request, validatorChecks, specCheckUtf8, specCheckRequestLine,
        specCheckMethod, specCheckUri, specCheckProtocol, specCheckHost, specCheckTerminator,
        decodedCps, lineTok, hdec, hl, firstSome]
    | cons l0 rest =>
      cases hrlv : request_line_validation l0 with
      | error e =>
        have hrlv2 := hrlv
        unfold request_line_validation at hrlv2
        revert hrlv2
        split
        · rename_i m u p hs
          intro hrlv2
          split_ifs at hrlv2 with h1 h2 h3
          · cases hrlv2
            simp at h1
            simp [handle_request, validatorChecks, specCheckUtf8, specCheckRequestLine,
              specCheckMethod, decodedCps, lineTok, hdec, hl, hs, hrlv, h1, firstSome]
          · cases hrlv2
            simp at h1 h2
            simp [handle_request, validatorChecks, specCheckUtf8, specCheckRequestLine,
              specCheckMethod, specCheckUri, decodedCps, lineTok, hdec, hl, hs, hrlv,
              h1, h2, firstSome]
          · revert hrlv2
            cases hv : validate_uri u with
            | error e2 =>
              intro hrlv2
              cases hrlv2
              simp at h1 h2 h3
              simp [handle_request, validatorChecks, specCheckUtf8, specCheckRequestLine,
                specCheckMethod, specCheckUri, decodedCps, lineTok, hdec, hl, hs, hrlv,
                h1, h2, hv, firstSome]
            | ok u2 =>
              intro hrlv2
              cases hrlv2
              simp at h1 h2 h3
              simp [handle_request, validatorChecks, specCheckUtf8, specCheckRequestLine,
                specCheckMethod, specCheckUri, specCheckProtocol, decodedCps, lineTok,
                hdec, hl, hs, hrlv, h1, h2, hv, h3, firstSome]
          · revert hrlv2
            cases hv : validate_uri u with
            | error e2 =>
              intro hrlv2
              cases hrlv2
              simp at h1 h2 h3
              simp [handle_request, validatorChecks, specCheckUtf8, specCheckRequestLine,
                specCheckMethod, specCheckUri, decodedCps, lineTok, hdec, hl, hs, hrlv,
                h1, h2, hv, firstSome]
            | ok u2 =>
              intro hrlv2
              cases hrlv2
        · rename_i hnot
          intro hrlv2
          cases hrlv2
          have hlen := splitWs_not3 l0 (by intro a b c hh; exact hnot a b c hh)
          simp [handle_request, validatorChecks, specCheckUtf8, specCheckRequestLine,
            decodedCps, lineTok, hdec, hl, hrlv, hlen, firstSome]
      | ok u1 =>
        obtain ⟨m, u, p, hs, hm, hp⟩ := rlv_ok_shape l0 hrlv
        have h4 : 4 ≤ buffer.length := buffer_length_of_ok buffer s l0 rest hdec hl hrlv
        have hlen3 := splitWs_len3 l0 m u p hs
        have hrlv2 := hrlv
        unfold request_line_validation at hrlv2
        rw [hs] at hrlv2
        dsimp only at hrlv2
        split_ifs at hrlv2 with h1 h2 h3
        · revert hrlv2
          cases hv : validate_uri u with
          | error e2 => intro hrlv2; cases hrlv2
          | ok u2 => intro hrlv2; cases hrlv2
        · revert hrlv2
          cases hv : validate_uri u with
          | error e2 => intro hrlv2; cases hrlv2
          | ok u2 =>
            intro hrlv2
            simp at h1 h2 h3
            cases hh : validate_headers rest with
            | error e3 =>
              simp [handle_request, validatorChecks, specCheckUtf8, specCheckRequestLine,
                specCheckMethod, specCheckUri, specCheckProtocol, specCheckHost,
                decodedCps, lineTok, hdec, hl, hs, hrlv, hh, h1, h2, hv, h3, firstSome]
            | ok u3 =>
              by_cases hend : endsWithList [13, 10, 13, 10] buffer = true
              · have hdrop := (endsWith_drop buffer h4).mp hend
                simp [handle_request, validatorChecks, specCheckUtf8, specCheckRequestLine,
                  specCheckMethod, specCheckUri, specCheckProtocol, specCheckHost,
                  specCheckTerminator, check_overflow, decodedCps, lineTok, hdec, hl, hs,
                  hrlv, hh, h1, h2, hv, h3, hend, hdrop, firstSome]
                omega
              · have hdrop : buffer.drop (buffer.length - 4) ≠ [13, 10, 13, 10] := by
                  intro hc
                  exact hend ((endsWith_drop buffer h4).mpr hc)
                simp [handle_request, validatorChecks, specCheckUtf8, specCheckRequestLine,
                  specCheckMethod, specCheckUri, specCheckProtocol, specCheckHost,
                  specCheckTerminator, check_overflow, decodedCps, lineTok, hdec, hl, hs,
                  hrlv, hh, h1, h2, hv, h3, hend, hdrop, firstSome]
                omega

/-- C5: for every reachable state of the admission system of run_server, the
number of simultaneously active connection sessions never exceeds the
semaphore capacity five; the exact permit count — free permits, plus the one
the acceptor may hold between acquire_owned and spawn, plus one per active
session — is always five, so a permit is acquired before each session starts
and released exactly once when the session task ends (the sessionEnd
transition), never leaked and never double-released. -/
theorem c5_connection_limit (s : ServerState) (h : ServerReachable s) :
    s.active ≤ 5 ∧
      s.available + s.active + (if s.acceptorHolding then 1 else 0) = 5 := by
  unfold ServerReachable at h
  induction h with
  | refl => simp [initialServer]
  | tail hsteps hstep ih =>
    cases hstep with
    | acquire h1 h2 => simp_all; omega
    | spawn h1 => simp_all; omega
    | acceptFail h1 => simp_all; omega
    | sessionEnd h1 =>
      obtain ⟨ih1, ih2⟩ := ih
      split at ih2 <;> rename_i hcond <;> simp [hcond] <;> omega

/-- Witness for C5: the state with one active session and four free permits,
reached by one acquire and one spawn, satisfies the bound and the permit
accounting. -/
theorem c5_witness :
    (ServerState.mk 4 false 1).active ≤ 5 ∧
      (ServerState.mk 4 false 1).available + (ServerState.mk 4 false 1).active +
        (if (ServerState.mk 4 false 1).acceptorHolding then 1 else 0) = 5 :=
  c5_connection_limit (ServerState.mk 4 false 1)
    (Relation.ReflTransGen.tail
      (Relation.ReflTransGen.tail Relation.ReflTransGen.refl
        (ServerStep.acquire initialServer rfl (by decide)))
      (ServerStep.spawn (ServerState.mk 4 true 0) rfl))

/-- C3: for every sequence of accept outcomes, Listener::accept terminates:
either some attempt among the first six succeeds — the first success, after
exactly the failed waits 200, 400, 800, 1600, 3200 that precede it, with the
backoff re-initialized to 200 on each call — or all six fail and the loop
returns the fatal SocketError after the full deterministic wait sequence
200, 400, 800, 1600, 3200, the sixth failure meeting backoff 6400 over the
6000 ceiling without a further retry. -/
theorem c3_accept_backoff (outcome : Nat → Bool) :
    (∃ k, k ≤ 5 ∧ outcome k = true ∧ (∀ j, j < k → outcome j = false) ∧
      Listener.accept outcome = (.ok k, [200, 400, 800, 1600, 3200].take k)) ∨
    ((∀ j, j ≤ 5 → outcome j = false) ∧
      Listener.accept outcome =
        (.error (.SocketError (str "Error establishing connection")),
          [200, 400, 800, 1600, 3200])) := by
  unfold Listener.accept
  cases h0 : outcome 0 with
  | true =>
    left
    refine ⟨0, by omega, h0, fun j hj => absurd hj (by omega), ?_⟩
    rw [acceptLoop]
    simp [h0]
  | false =>
  cases h1 : outcome 1 with
  | true =>
    left
    refine ⟨1, by omega, h1, ?_, ?_⟩
    · intro j hj; interval_cases j; exact h0
    · rw [acceptLoop]; simp [h0]; rw [acceptLoop]; simp [h1, consWait]
  | false =>
  cases h2 : outcome 2 with
  | true =>
    left
    refine ⟨2, by omega, h2, ?_, ?_⟩
    · intro j hj; interval_cases j
      · exact h0
      · exact h1
    · rw [acceptLoop]; simp [h0]; rw [acceptLoop]; simp [h1]
      rw [acceptLoop]; simp [h2, consWait]
  | false =>
  cases h3 : outcome 3 with
  | true =>
    left
    refine ⟨3, by omega, h3, ?_, ?_⟩
    · intro j hj; interval_cases j
      · exact h0
      · exact h1
      · exact h2
    · rw [acceptLoop]; simp [h0]; rw [acceptLoop]; simp [h1]
      rw [acceptLoop]; simp [h2]; rw [acceptLoop]; simp [h3, consWait]
  | false =>
  cases h4 : outcome 4 with
  | true =>
    left
    refine ⟨4, by omega, h4, ?_, ?_⟩
    · intro j hj; interval_cases j
      · exact h0
      · exact h1
      · exact h2
      · exact h3
    · rw [acceptLoop]; simp [h0]; rw [acceptLoop]; simp [h1]
      rw [acceptLoop]; simp [h2]; rw [acceptLoop]; simp [h3]
      rw [acceptLoop]; simp [h4, consWait]
  | false =>
  cases h5 : outcome 5 with
  | true =>
    left
    refine ⟨5, by omega, h5, ?_, ?_⟩
    · intro j hj; interval_cases j
      · exact h0
      · exact h1
      · exact h2
      · exact h3
      · exact h4
    · rw [acceptLoop]; simp [h0]; rw [acceptLoop]; simp [h1]
      rw [acceptLoop]; simp [h2]; rw [acceptLoop]; simp [h3]
      rw [acceptLoop]; simp [h4]; rw [acceptLoop]; simp [h5, consWait]
  | false =>
    right
    refine ⟨?_, ?_⟩
    · intro j hj
      interval_cases j
      · exact h0
      · exact h1
      · exact h2
      · exact h3
      · exact h4
      · exact h5
    · rw [acceptLoop]; simp [h0]; rw [acceptLoop]; simp [h1]
      rw [acceptLoop]; simp [h2]; rw [acceptLoop]; simp [h3]
      rw [acceptLoop]; simp [h4]; rw [acceptLoop]; simp [h5, consWait]


/-- Every error of validate_uri carries the invalid-uri message with the
offending URI appended. -/
theorem validate_uri_error_shape (u : List Nat) (e : ErrorType)
    (h : validate_uri u = .error e) : e = .BadRequest (str "Invalid uri: " ++ u) := by
  unfold validate_uri at h
  split_ifs at h <;> cases h <;> rfl

/-- The invalid-uri message never coincides with the invalid-method message:
they differ at the ninth code point, whatever the URI. -/
theorem uri_msg_ne (u : List Nat) :
    str "Invalid uri: " ++ u ≠ str "Invalid request method" := by
  intro h
  have h9 : (str "Invalid uri: " ++ u).getD 8 0 = (str "Invalid request method").getD 8 0 := by
    rw [h]
  rw [List.getD_append] at h9
  · revert h9; decide
  · decide

/-- C2 (amended): for every request line with exactly three
whitespace-separated tokens, the validator rejects with the
invalid-request-method error exactly when the method token is outside the
four supported methods GET, POST, PUT, DELETE; PATCH is not supported. -/
theorem c2_method_check (l m u p : List Nat) (hs : splitWs l = [m, u, p]) :
    (request_line_validation l = .error (.BadRequest (str "Invalid request method")) ↔
      methods.contains m = false) := by
  unfold request_line_validation
  rw [hs]
  dsimp only
  by_cases hm : methods.contains m
  · rw [hm]
    simp only [Bool.not_true, Bool.false_eq_true, if_false]
    constructor
    · intro h
      exfalso
      split_ifs at h with h2 h3
      · have hmsg := ErrorType.BadRequest.inj (Except.error.inj h)
        revert hmsg; decide
      · revert h
        cases hv : validate_uri u with
        | error e2 =>
          intro h
          have he2 := validate_uri_error_shape u e2 hv
          have hmsg := Except.error.inj h
          rw [he2] at hmsg
          exact uri_msg_ne u (ErrorType.BadRequest.inj hmsg)
        | ok u2 =>
          intro h
          have hmsg := ErrorType.BadRequest.inj (Except.error.inj h)
          revert hmsg; decide
      · revert h
        cases hv : validate_uri u with
        | error e2 =>
          intro h
          have he2 := validate_uri_error_shape u e2 hv
          have hmsg := Except.error.inj h
          rw [he2] at hmsg
          exact uri_msg_ne u (ErrorType.BadRequest.inj hmsg)
        | ok u2 => intro h; cases h
    · intro h
      exact absurd h (by decide)
  · have hm2 : methods.contains m = false := by
      revert hm; cases methods.contains m <;> simp
    rw [hm2]
    simp


/-- C2 counterexample: PATCH is one of the five methods the claim says the
validator accepts, yet on the three-token request line with method PATCH the
validator rejects with the invalid-request-method error. -/
theorem c2_counterexample :
    splitWs (str "PATCH /a HTTP/1.1") = [str "PATCH", str "/a", str "HTTP/1.1"] ∧
    request_line_validation (str "PATCH /a HTTP/1.1") =
      .error (.BadRequest (str "Invalid request method")) := by
  constructor <;> decide

/-- Witness for C2: the amended method check instantiated on a GET request
line. -/
theorem c2_witness :
    splitWs (str "GET /a HTTP/1.1") = [str "GET", str "/a", str "HTTP/1.1"] ∧
    (request_line_validation (str "GET /a HTTP/1.1") =
        .error (.BadRequest (str "Invalid request method")) ↔
      methods.contains (str "GET") = false) :=
  ⟨by decide,
   c2_method_check (str "GET /a HTTP/1.1") (str "GET") (str "/a") (str "HTTP/1.1") (by decide)⟩

/-- A short-circuiting check run succeeds exactly when every check passes. -/
theorem firstSome_ok_iff (cs : List (Option ErrorType)) :
    firstSome cs = .ok () ↔ ∀ c ∈ cs, c = none := by
  induction cs with
  | nil => simp [firstSome]
  | cons a rest ih =>
    cases a with
    | none => rw [firstSome]; simp [ih]
    | some e => rw [firstSome]; simp

/-- C7: the validator behaves exactly as the seven spec checks — UTF-8
decoding, request-line three-token shape, method, URI, protocol,
exactly-one-Host-header, trailing CR LF CR LF terminator — run in that fixed
order with a short circuit at the first failure: the result is Ok exactly
when all seven pass, and otherwise the error of the earliest failing check. -/
theorem c7_check_order (buffer : List Nat) :
    handle_request buffer = some (firstSome (validatorChecks buffer)) ∧
    (handle_request buffer = some (.ok ()) ↔ ∀ c ∈ validatorChecks buffer, c = none) := by
  refine ⟨handle_request_eq_checks buffer, ?_⟩
  rw [handle_request_eq_checks buffer]
  simp only [Option.some_inj]
  exact firstSome_ok_iff (validatorChecks buffer)

/-- C10: handle_request is total — for every byte buffer, the empty and the
shorter-than-four-byte ones included, it returns Ok or Err and never reaches
the panic of the terminator slice, because that check runs only after the
request-line checks have forced at least four bytes into the buffer. -/
theorem c10_handle_request_total (buffer : List Nat) :
    (handle_request buffer).isSome = true := by
  rw [handle_request_eq_checks buffer]
  rfl

/-- C9 counterexample: on the one-byte buffer 255, which is not valid UTF-8,
Request::new panics through the unwrap of the UTF-8 conversion (the panic is
the none value of the model), so it does not return Ok or a structured Err. -/
theorem c9_counterexample : Request.new [255] = none := by decide

/-- C9 (amended): Request::new returns Ok or a structured Err exactly on the
buffers that decode as UTF-8 and either have fewer than three lines or carry
at least two whitespace-separated tokens on the first line; on every other
buffer — invalid UTF-8, or a first line with fewer than two tokens in a
three-or-more-line request — it panics. -/
theorem c9_request_new_domain (buffer : List Nat) :
    (Request.new buffer).isSome = true ↔
      (match utf8Decode buffer with
       | none => False
       | some s => (linesOf s).length < 3 ∨
           2 ≤ (splitWs ((linesOf s).headD [])).length) := by
  unfold Request.new
  cases hdec : utf8Decode buffer with
  | none => simp
  | some s =>
    by_cases hlen : (linesOf s).length < 3
    · simp [hlen]
    · cases hls : linesOf s with
      | nil => rw [hls] at hlen; simp at hlen
      | cons l0 rest =>
        rw [hls] at hlen
        simp only [hls, if_neg hlen, List.headD_cons]
        simp only [List.length_cons] at hlen
        cases hsw : splitWs l0 with
        | nil => simp [hlen, hsw]
        | cons a t =>
          cases t with
          | nil => simp [hlen, hsw]
          | cons b t2 => simp [hlen, hsw]


/-- C1 evaluation: two buffers on which handle_request returns an error, yet
the session loop does not close the connection after logging — the Err arm
of the validation match in run_server has no break.  On the invalid UTF-8
buffer the loop proceeds into Request::new and panics on its unwrap; on the
terminator-less buffer the loop proceeds all the way to dispatching the
parsed request. -/
theorem c1_no_close_on_validation_failure :
    handle_request [128] = some (.error (.BadRequest (str "Invalid UTF-8 request"))) ∧
    session_validate_parse [128] = .panicked [.BadRequest (str "Invalid UTF-8 request")] ∧
    handle_request (str "GET /a HTTP/1.1\nHost: x\nB") =
      some (.error (.BadRequest (str "Request overflow"))) ∧
    session_validate_parse (str "GET /a HTTP/1.1\nHost: x\nB") =
      .dispatched [.BadRequest (str "Request overflow")]
        (Request.mk [str "Host: x", str "B"] [] .GET (str "/a")) :=
  ⟨by decide, by decide, by decide, by decide⟩

/-- C8: every request whose URI token contains a dot-dot sequence is
rejected — never Ok — and, whenever the method check lets the request reach
the URI check, the rejection is a URI error; in particular the validator
rejects the path-traversal buffer with the invalid-uri error naming
/../etc/passwd, and accepts the well-formed index.html request. -/
theorem c8_uri_traversal :
    (∀ buffer s l0 rest m u p,
       utf8Decode buffer = some s → linesOf s = l0 :: rest →
       splitWs l0 = [m, u, p] → containsSub (str "..") u = true →
       handle_request buffer ≠ some (.ok ()) ∧
       (methods.contains m = true →
         handle_request buffer = some (.error (.BadRequest (str "Invalid request uri"))) ∨
         handle_request buffer = some (.error (.BadRequest (str "Invalid uri: " ++ u))))) ∧
    handle_request (str "GET /../etc/passwd HTTP/1.1\r\nHost: x\r\n\r\n") =
      some (.error (.BadRequest (str "Invalid uri: /../etc/passwd"))) ∧
    handle_request (str "GET /index.html HTTP/1.1\r\nHost: example.com\r\n\r\n") =
      some (.ok ()) := by
  refine ⟨?_, by decide, by decide⟩
  intro buffer s l0 rest m u p hdec hl hs hdd
  have hc4 : ∃ e, specCheckUri buffer = some e ∧
      (e = .BadRequest (str "Invalid request uri") ∨
       e = .BadRequest (str "Invalid uri: " ++ u)) := by
    unfold specCheckUri lineTok decodedCps
    rw [hdec]
    simp only [Option.getD_some, hl, List.headD_cons, hs, List.getD_cons_zero,
      List.getD_cons_succ]
    by_cases hsl : startsWithList (str "/") u = true
    · have hv : validate_uri u = .error (.BadRequest (str "Invalid uri: " ++ u)) := by
        unfold validate_uri
        rw [hdd]
        simp
      simp [hsl, hv]
    · have hsl2 : (!startsWithList (str "/") u) = true := by
        revert hsl; cases startsWithList (str "/") u <;> simp
      simp [hsl2]
  obtain ⟨e, he, hshape⟩ := hc4
  have hc1 : specCheckUtf8 buffer = none := by
    unfold specCheckUtf8
    rw [hdec]
    rfl
  have hc2 : specCheckRequestLine buffer = none := by
    unfold specCheckRequestLine decodedCps
    rw [hdec]
    simp only [Option.getD_some, hl, hs]
    rfl
  constructor
  · rw [handle_request_eq_checks buffer]
    intro heq
    have hok := Option.some_inj.mp heq
    have hall := (firstSome_ok_iff (validatorChecks buffer)).mp hok
    have hmem : specCheckUri buffer ∈ validatorChecks buffer := by
      unfold validatorChecks
      simp
    have := hall (specCheckUri buffer) hmem
    rw [he] at this
    cases this
  · intro hm
    have hc3 : specCheckMethod buffer = none := by
      unfold specCheckMethod lineTok decodedCps
      rw [hdec]
      simp only [Option.getD_some, hl, List.headD_cons, hs, List.getD_cons_zero]
      rw [hm]
      rfl
    have : handle_request buffer = some (.error e) := by
      rw [handle_request_eq_checks buffer]
      unfold validatorChecks
      rw [hc1, hc2, hc3, he]
      rfl
    rcases hshape with h | h
    · left; rw [this, h]
    · right; rw [this, h]


/-- C4: Response::to_bytes emits the header section followed by the final
body, where the final body is the raw body when compressionRequested is
false and the compressed body when it is true — so an inverse of the
compressor recovers the original body bytes exactly — and the emitted
Content-Length header (the last header of the header section) carries the
length of that final, post-compression body. -/
theorem c4_response_codec (gz dec : List Nat → List Nat)
    (hdec : ∀ b, dec (gz b) = b) (resp : Response) :
    Response.to_bytes gz resp = headerSection gz resp ++ finalBody gz resp ∧
    (resp.compression = false → finalBody gz resp = resp.body) ∧
    (resp.compression = true → dec (finalBody gz resp) = resp.body) := by
  refine ⟨?_, ?_, ?_⟩
  · unfold Response.to_bytes headerSection finalBody
    cases hc : resp.compression <;> simp [List.append_assoc]
  · intro h
    unfold finalBody
    rw [h]
    rfl
  · intro h
    unfold finalBody
    rw [h]
    simp [hdec]

/-- Witness for C4: the codec equations instantiated with the identity as
compressor and decompressor on the sample response. -/
theorem c4_witness :
    (∀ b : List Nat, (fun x => x) ((fun x => x) b) = b) ∧
    (Response.to_bytes (fun x => x) sampleResponse =
        headerSection (fun x => x) sampleResponse ++
          finalBody (fun x => x) sampleResponse ∧
      (sampleResponse.compression = false →
        finalBody (fun x => x) sampleResponse = sampleResponse.body) ∧
      (sampleResponse.compression = true →
        (fun x => x) (finalBody (fun x => x) sampleResponse) = sampleResponse.body)) :=
  ⟨fun _ => rfl,
   c4_response_codec (fun x => x) (fun x => x) (fun _ => rfl) sampleResponse⟩

end RustServer
